import Mathlib

/-!
Verification of the s4 terminal S3 browser (Go) against its specification.

The Go source is shallowly embedded: Go strings become `List Char` (byte-wise
lexicographic comparison on UTF-8 strings agrees with code-point comparison),
Go `int` becomes `Int` (or `Nat` where the source keeps the value non-negative),
the Bubble Tea model becomes a `Model` structure, key presses and asynchronous
result messages become inductives, and each Go handler becomes a pure function
`Model → input → Model × Option Cmd` mirroring the source control flow.
-/

namespace S4

/-- Go strings, as lists of characters. -/
abbrev Str := List Char

/-- Go string comparison `a < b`: lexicographic. -/
def strLt : Str → Str → Bool
  | [], [] => false
  | [], _ :: _ => true
  | _ :: _, [] => false
  | a :: as, b :: bs => if a < b then true else if b < a then false else strLt as bs

/-- Go `strings.HasPrefix(name, ".")`: the hidden-file test of `loadLocalFiles`. -/
def isHiddenName : Str → Bool
  | [] => false
  | c :: _ => c == '.'

/-- Go `filepath.Base`: strip trailing slashes, then keep the last element;
"." for the empty path, "/" when only slashes remain. -/
def baseName (s : Str) : Str :=
  if s.isEmpty then ['.']
  else
    let s1 := (s.reverse.dropWhile (fun c => c == '/')).reverse
    if s1.isEmpty then ['/']
    else (s1.reverse.takeWhile (fun c => c != '/')).reverse

/-- Go `filepath.Ext` on a path element (scan for the last dot): the suffix of
`s` starting at its last `.`, or `[]` when `s` has no dot. In `pasteFiles` it
is applied to a `filepath.Base` result, which contains no slash. -/
def extOf : Str → Str
  | [] => []
  | c :: rest =>
    if rest.contains '.' then extOf rest
    else if c == '.' then c :: rest else []

/-- Go `strings.TrimSuffix`. -/
def trimSuffix (s suf : Str) : Str :=
  if suf.isSuffixOf s then s.take (s.length - suf.length) else s

/-- The destination key `pasteFiles` builds under the current path:
`currentPath + "/" + filename` when the path is nonempty, else `filename`. -/
def destKeyFor (currentPath filename : Str) : Str :=
  if currentPath.isEmpty then filename else currentPath ++ '/' :: filename

/-- The character of one decimal digit. -/
def digitChar (d : Nat) : Char := Char.ofNat (48 + d)

/-- Decimal representation of a natural number, as Go `fmt.Sprintf` prints it
with the `d` verb. -/
def natChars (n : Nat) : Str :=
  if n = 0 then ['0'] else ((Nat.digits 10 n).map digitChar).reverse

/-- The conflict filename `pasteFiles` builds: `stem_copy_N` with the
extension reattached. -/
def copyFileName (stem ext : Str) (n : Nat) : Str :=
  stem ++ ('_' :: 'c' :: 'o' :: 'p' :: 'y' :: '_' :: natChars n) ++ ext

/-- The counter search of `pasteFiles`: starting from `c`, the first counter
whose candidate destination key is not among `keys`. The Go loop is unbounded;
it always stops within `keys.length + 1` steps because candidate keys for
distinct counters are distinct (proved below), so that fuel makes the
function total without changing its value. -/
def findCounter (keys : List Str) (pth stem ext : Str) : Nat → Nat → Nat
  | c, 0 => c
  | c, fuel + 1 =>
    if destKeyFor pth (copyFileName stem ext c) ∈ keys then
      findCounter keys pth stem ext (c + 1) fuel
    else c

/-- The destination key `pasteFiles` chooses for one yanked key, given the
keys of the current listing: the plain destination when it is not listed,
otherwise the first `_copy_N` candidate that is not listed. -/
def pasteDest (keys : List Str) (pth yanked : Str) : Str :=
  let filename := baseName yanked
  let d0 := destKeyFor pth filename
  if d0 ∈ keys then
    let ext := extOf filename
    let stem := trimSuffix filename ext
    destKeyFor pth (copyFileName stem ext (findCounter keys pth stem ext 1 (keys.length + 1)))
  else d0

/-! ## Data model (README.md source, full variant) -/

/-- `S3Object` from s3client.go: one listed object or directory-like prefix. -/
structure S3Object where
  Key : Str
  Size : Int
  LastModified : Str
  IsDir : Bool
deriving DecidableEq, Repr

/-- `LocalItem`: one entry of the upload picker. -/
structure LocalItem where
  Name : Str
  IsDir : Bool
  Size : Int
deriving DecidableEq, Repr

/-- `DirStats`: the cached directory statistics record. -/
structure DirStats where
  Size : Int
  LastModified : Str
  SizeTimeout : Bool
  DateTimeout : Bool
deriving DecidableEq, Repr

/-- `ViewMode`. -/
inductive ViewMode where
  | browser | preview | help | upload | rename | confirm
deriving DecidableEq, Repr

/-- The payload of a `dirStatsMsg`. -/
structure DirStatsMsgData where
  dirKey : Str
  size : Int
  lastModified : Str
  sizeTimeout : Bool
  dateTimeout : Bool
deriving DecidableEq, Repr

/-- The commands the state machine dispatches (each `tea.Cmd` closure the Go
handlers return, identified by the operation and the data the closure
captures). `calcBatch` stands for the `tea.Batch` of `calculateDirStats`
commands the `objectsLoadedMsg` handler builds, one per listed directory key
without cached stats. -/
inductive Cmd where
  | loadObjects (pth : Str)
  | previewFile (key : Str)
  | loadLocalFiles (pth : Str)
  | uploadFile (pth : Str)
  | deleteFile (key : Str)
  | downloadFile (key : Str)
  | renameFile (oldKey newName : Str)
  | pasteFilesCmd
  | calcBatch (dirKeys : List Str)
  | quit
deriving DecidableEq, Repr

/-- The Bubble Tea `Model` of the full variant (README.md). Go `error` fields
become `Option Str` (the message), the `interface` upload payload becomes
`Option Str` (it only ever holds a path string), and the stats-cache map
becomes an association list. -/
structure Model where
  currentPath : Str
  objects : List S3Object
  cursor : Int
  viewMode : ViewMode
  previewContent : Str
  previewFileName : Str
  previewLines : List Str
  previewScroll : Int
  previewWidth : Int
  localItems : List LocalItem
  localPath : Str
  err : Option Str
  statusMessage : Str
  loading : Bool
  width : Int
  height : Int
  yankedFiles : List Str
  renameInput : Str
  renameOriginal : Str
  renameCursor : Nat
  scrollOffset : Int
  confirmAction : Str
  confirmTarget : Str
  confirmData : Option Str
  dirStatsCache : List (Str × DirStats)
deriving DecidableEq, Repr

/-- Association-list insert modelling Go map assignment `m[k] = v`. -/
def insertAL {β : Type} (l : List (Str × β)) (k : Str) (v : β) : List (Str × β) :=
  match l with
  | [] => [(k, v)]
  | (k1, v1) :: rest => if k1 = k then (k, v) :: rest else (k1, v1) :: insertAL rest k v

/-- Association-list lookup modelling Go map read `m[k]`. -/
def lookupAL {β : Type} (l : List (Str × β)) (k : Str) : Option β :=
  match l with
  | [] => none
  | (k1, v1) :: rest => if k1 = k then some v1 else lookupAL rest k

/-! ## Scroll model (`updateScroll`, README lines 661-696) -/

/-- The list height: `m.height - 8`, floored at 5 rows. -/
def availableHeight (height : Int) : Int :=
  if height - 8 < 5 then 5 else height - 8

/-- First `if` of `updateScroll`: scroll down when the cursor is too close to
the bottom of the window (`scrollback` is 2). -/
def scrollSnapDown (c ah so : Int) : Int :=
  if so + ah - 2 ≤ c then c - ah + 2 + 1 else so

/-- Second `if` of `updateScroll`: scroll up when the cursor is too close to
the top of the window. -/
def scrollSnapUp (c so : Int) : Int :=
  if c < so + 2 then c - 2 else so

/-- Third `if` of `updateScroll`: clamp the offset at 0. -/
def scrollClampLow (so : Int) : Int :=
  if so < 0 then 0 else so

/-- Fourth `if` of `updateScroll`: clamp the window to the end of the list,
re-clamping at 0. -/
def scrollClampHigh (n ah so : Int) : Int :=
  if n - ah < so then (if n - ah < 0 then 0 else n - ah) else so

/-- The four sequential offset updates of `updateScroll`. -/
def scrollAdjust (n c ah so : Int) : Int :=
  scrollClampHigh n ah (scrollClampLow (scrollSnapUp c (scrollSnapDown c ah so)))

/-- The offset `updateScroll` leaves in the model. -/
def newScrollOffset (m : Model) : Int :=
  if m.objects.length = 0 then 0
  else scrollAdjust (m.objects.length : Int) m.cursor (availableHeight m.height) m.scrollOffset

/-- `updateScroll`: adjusts only the scroll offset. -/
def updateScroll (m : Model) : Model :=
  { m with scrollOffset := newScrollOffset m }

/-! ## Browser-mode key handling (`updateBrowser`, README lines 461-657) -/

/-- The key cases of the full variant's `updateBrowser`, one constructor per
`switch` case (`quit` is `ctrl+c`/`q`, `enter` is `enter`/`l`/`o`, `back` is
`backspace`/`h`, and so on); `other` stands for any key the `switch` does not
mention, which leaves the model unchanged. -/
inductive BKey where
  | quit | up | down | enter | back | rename | download | upload | delete
  | yank | paste | clearYank | gofirst | golast | halfdown | halfup | help
  | other
deriving DecidableEq, Repr

/-- `updateBrowser` of the full variant. Go indexes `m.objects[m.cursor]`
(in reachable states the cursor is in range); an out-of-range index is
modelled as leaving the state unchanged. -/
def updateBrowser (m : Model) (k : BKey) : Model × Option Cmd :=
  match k with
  | .quit => (m, some Cmd.quit)
  | .up =>
    if 0 < m.cursor then (updateScroll { m with cursor := m.cursor - 1 }, none)
    else (m, none)
  | .down =>
    if m.cursor < (m.objects.length : Int) - 1 then
      (updateScroll { m with cursor := m.cursor + 1 }, none)
    else (m, none)
  | .enter =>
    if 0 < m.objects.length then
      match m.objects.get? m.cursor.toNat with
      | some selected =>
        if selected.IsDir then
          ({ m with
            currentPath := selected.Key, loading := true, dirStatsCache := [] },
          some (Cmd.loadObjects selected.Key))
        else (m, some (Cmd.previewFile selected.Key))
      | none => (m, none)
    else (m, none)
  | .back =>
    if m.currentPath.isEmpty then (m, none)
    else
      let parts := m.currentPath.splitOn '/'
      let newPath := if 1 < parts.length then List.intercalate ['/'] parts.dropLast else []
      ({ m with
          currentPath := newPath, loading := true, dirStatsCache := [] },
        some (Cmd.loadObjects newPath))
  | .rename =>
    if 0 < m.objects.length then
      match m.objects.get? m.cursor.toNat with
      | some selected =>
        if selected.IsDir then (m, none)
        else
          ({ m with
              renameOriginal := selected.Key, renameInput := baseName selected.Key,
              renameCursor := (baseName selected.Key).length, viewMode := ViewMode.rename,
              err := none, statusMessage := [] }, none)
      | none => (m, none)
    else (m, none)
  | .download =>
    if 0 < m.objects.length then
      match m.objects.get? m.cursor.toNat with
      | some selected =>
        if selected.IsDir then (m, none)
        else
          ({ m with
              confirmAction := "download".toList, confirmTarget := selected.Key,
              viewMode := ViewMode.confirm, err := none, statusMessage := [] }, none)
      | none => (m, none)
    else (m, none)
  | .upload => (m, some (Cmd.loadLocalFiles ['.']))
  | .delete =>
    if 0 < m.objects.length then
      match m.objects.get? m.cursor.toNat with
      | some selected =>
        if selected.IsDir then (m, none)
        else
          ({ m with
              confirmAction := "delete".toList, confirmTarget := selected.Key,
              viewMode := ViewMode.confirm, err := none, statusMessage := [] }, none)
      | none => (m, none)
    else (m, none)
  | .yank =>
    if 0 < m.objects.length then
      match m.objects.get? m.cursor.toNat with
      | some selected =>
        if selected.IsDir then (m, none)
        else
          let yanked :=
            if m.yankedFiles.contains selected.Key then m.yankedFiles.erase selected.Key
            else m.yankedFiles ++ [selected.Key]
          let m1 := { m with yankedFiles := yanked, err := none }
          if m1.cursor < (m1.objects.length : Int) - 1 then
            (updateScroll { m1 with cursor := m1.cursor + 1 }, none)
          else (m1, none)
      | none => (m, none)
    else (m, none)
  | .paste =>
    if 0 < m.yankedFiles.length then (m, some Cmd.pasteFilesCmd) else (m, none)
  | .clearYank =>
    if 0 < m.yankedFiles.length then
      ({ m with
          yankedFiles := [],
          statusMessage := "✓ Cleared ".toList ++ natChars m.yankedFiles.length
            ++ " yanked file(s)".toList,
          err := none }, none)
    else (m, none)
  | .gofirst =>
    if 0 < m.objects.length then (updateScroll { m with cursor := 0 }, none)
    else (m, none)
  | .golast =>
    if 0 < m.objects.length then
      (updateScroll { m with cursor := (m.objects.length : Int) - 1 }, none)
    else (m, none)
  | .halfdown =>
    if 0 < m.objects.length then
      let ah := availableHeight m.height
      let ps := if ah / 2 < 1 then 1 else ah / 2
      let c1 := m.cursor + ps
      let c2 := if (m.objects.length : Int) ≤ c1 then (m.objects.length : Int) - 1 else c1
      (updateScroll { m with cursor := c2 }, none)
    else (m, none)
  | .halfup =>
    if 0 < m.objects.length then
      let ah := availableHeight m.height
      let ps := if ah / 2 < 1 then 1 else ah / 2
      let c1 := m.cursor - ps
      let c2 := if c1 < 0 then 0 else c1
      (updateScroll { m with cursor := c2 }, none)
    else (m, none)
  | .help => ({ m with viewMode := ViewMode.help }, none)
  | .other => (m, none)

/-! ## Listing and ordering (`loadObjects` / `loadLocalFiles`) -/

/-- The `sort.Slice` comparator of `loadObjects` on projections `(IsDir, key)`:
directories first, then lexicographic by key. -/
def goLess (d1 : Bool) (k1 : Str) (d2 : Bool) (k2 : Str) : Bool :=
  if d1 != d2 then d1 else strLt k1 k2

/-- The comparator of `loadObjects` (README lines 1517-1522). -/
def s3ObjectLess (a b : S3Object) : Bool := goLess a.IsDir a.Key b.IsDir b.Key

/-- The comparator of `loadLocalFiles` (README lines 1592-1597). -/
def localItemLess (a b : LocalItem) : Bool := goLess a.IsDir a.Name b.IsDir b.Name

/-- The sort of `loadObjects`. Go's `sort.Slice` with comparator `less`
produces a permutation ordered by `fun a b => less b a = false`; insertion
sort with that relation models it. -/
def sortObjects (objs : List S3Object) : List S3Object :=
  List.insertionSort (fun a b => s3ObjectLess b a = false) objs

/-- The sort of `loadLocalFiles`. -/
def sortLocalItems (items : List LocalItem) : List LocalItem :=
  List.insertionSort (fun a b => localItemLess b a = false) items

/-- The list `loadLocalFiles` builds before sorting: a synthetic `..` parent
entry, then the directory entries with hidden names (leading dot) removed.
(Entries whose `Info()` call fails are also skipped in Go; the input list here
stands for the entries that were read successfully.) -/
def buildLocalItems (entries : List LocalItem) : List LocalItem :=
  LocalItem.mk ['.', '.'] true 0 :: entries.filter (fun e => !(isHiddenName e.Name))

/-- The listing `loadLocalFiles` presents. -/
def localListing (entries : List LocalItem) : List LocalItem :=
  sortLocalItems (buildLocalItems entries)

/-! ## Directory statistics (`calculateDirStats`, README lines 1824-1909) -/

/-- How one dimension of `calculateDirStats` resolves its `select`: the
computation goroutine delivered a listing, or it delivered an error, or the
`time.After` deadline fired first. -/
inductive DimResult where
  | listed (objects : List S3Object)
  | failed
  | timedOut
deriving DecidableEq, Repr

/-- The size goroutine's aggregate: total size of the non-directory objects. -/
def sumSizes (objects : List S3Object) : Int :=
  objects.foldl (fun acc o => if !o.IsDir then acc + o.Size else acc) 0

/-- The date goroutine's aggregate: the maximal `LastModified` among
non-directory objects, `N/A` when there is none. -/
def latestDate (objects : List S3Object) : Str :=
  let d := objects.foldl
    (fun acc o =>
      if !o.IsDir && (acc.isEmpty || strLt acc o.LastModified) then o.LastModified else acc)
    []
  if d.isEmpty then "N/A".toList else d

/-- The single message `calculateDirStats` produces once both dimensions have
resolved: defaults `size = 0`, `lastModified = "N/A"`, each overwritten only
when its own goroutine won its race against error and deadline, the timeout
flag set otherwise. -/
def calculateDirStats (dirKey : Str) (sizeRes dateRes : DimResult) : DirStatsMsgData :=
  let sizePair : Int × Bool :=
    match sizeRes with
    | .listed objs => (sumSizes objs, false)
    | .failed => (0, true)
    | .timedOut => (0, true)
  let datePair : Str × Bool :=
    match dateRes with
    | .listed objs => (latestDate objs, false)
    | .failed => ("N/A".toList, true)
    | .timedOut => ("N/A".toList, true)
  { dirKey := dirKey, size := sizePair.1, lastModified := datePair.1,
    sizeTimeout := sizePair.2, dateTimeout := datePair.2 }

/-- The `DirStats` record the `dirStatsMsg` handler builds from the message. -/
def dirStatsRecord (d : DirStatsMsgData) : DirStats :=
  { Size := d.size, LastModified := d.lastModified,
    SizeTimeout := d.sizeTimeout, DateTimeout := d.dateTimeout }

/-! ## Asynchronous result messages (`Update`, README lines 282-457) -/

/-- The asynchronous result messages, with Go `error` fields as `Option Str`. -/
inductive Msg where
  | objectsLoaded (objects : List S3Object) (err : Option Str)
  | previewLoaded (content file : Str) (err : Option Str)
  | fileDownloaded (filename : Str) (err : Option Str)
  | fileUploaded (filename : Str) (err : Option Str)
  | fileDeleted (filename : Str) (err : Option Str)
  | fileCopied (sourceKey destKey : Str) (err : Option Str)
  | fileRenamed (oldKey newKey : Str) (err : Option Str)
  | statusEvent (message : Str) (isError : Bool)
  | localFilesLoaded (items : List LocalItem) (pth : Str) (err : Option Str)
  | errorEvent (e : Str)
  | dirStats (d : DirStatsMsgData)
deriving DecidableEq, Repr

/-- Go `strings.Contains` (substring test). -/
def strContainsSub (s sub : Str) : Bool :=
  if sub.isPrefixOf s then true
  else
    match s with
    | [] => false
    | _ :: t => strContainsSub t sub

/-- `calculatePreviewWidth` (README lines 1665-1698): rune counts are
character counts. -/
def calculatePreviewWidth (m : Model) : Int :=
  if m.previewLines.isEmpty then 80
  else
    let maxLineLength : Int :=
      m.previewLines.foldl (fun acc line => max acc ((line.length : Int) + 6)) 0
    let optimalWidth := maxLineLength + 8
    let maxAllowedWidth := if m.width - 10 < 40 then 40 else m.width - 10
    if maxAllowedWidth < optimalWidth then maxAllowedWidth
    else if optimalWidth < 60 then 60 else optimalWidth

/-- The message cases of `Update`. Status texts are built as the `Sprintf`
calls build them, with the quote characters around file names omitted. -/
def update (m : Model) : Msg → Model × Option Cmd
  | .objectsLoaded objs e =>
    let m1 := { m with loading := false }
    match e with
    | some err => ({ m1 with err := some err }, none)
    | none =>
      let m2 := { m1 with objects := objs, cursor := 0, scrollOffset := 0, err := none }
      let dirKeys :=
        (m2.objects.filter
          (fun o => o.IsDir && !(lookupAL m2.dirStatsCache o.Key).isSome)).map S3Object.Key
      if dirKeys.isEmpty then (m2, none) else (m2, some (Cmd.calcBatch dirKeys))
  | .previewLoaded content file e =>
    match e with
    | some err => ({ m with err := some err }, none)
    | none =>
      let m1 := { m with
        previewContent := content, previewFileName := file,
        previewLines := content.splitOn '\n', previewScroll := 0 }
      ({ m1 with
          previewWidth := calculatePreviewWidth m1, viewMode := ViewMode.preview,
          err := none }, none)
  | .fileDownloaded filename e =>
    let m1 := { m with loading := false }
    match e with
    | some err => ({ m1 with err := some err, statusMessage := [] }, none)
    | none =>
      ({ m1 with
          err := none,
          statusMessage := "✓ Downloaded ".toList ++ filename ++ " successfully".toList },
        none)
  | .fileUploaded filename e =>
    let m1 := { m with loading := false }
    match e with
    | some err => ({ m1 with err := some err, statusMessage := [] }, none)
    | none =>
      let m2 := { m1 with
        err := none,
        statusMessage := "✓ Uploaded ".toList ++ filename ++ " successfully".toList }
      (m2, some (Cmd.loadObjects m2.currentPath))
  | .fileDeleted filename e =>
    let m1 := { m with loading := false }
    match e with
    | some err => ({ m1 with err := some err, statusMessage := [] }, none)
    | none =>
      let m2 := { m1 with
        err := none,
        statusMessage := "✓ Deleted ".toList ++ filename ++ " successfully".toList }
      (m2, some (Cmd.loadObjects m2.currentPath))
  | .fileCopied sourceKey destKey e =>
    let m1 := { m with loading := false }
    match e with
    | some err => ({ m1 with err := some err, statusMessage := [] }, none)
    | none =>
      let message :=
        if strContainsSub sourceKey "files".toList then
          "✓ Copied ".toList ++ sourceKey ++ " successfully".toList
        else
          "✓ Copied ".toList ++ baseName sourceKey ++ " to ".toList ++ baseName destKey
            ++ " successfully".toList
      let m2 := { m1 with err := none, statusMessage := message }
      (m2, some (Cmd.loadObjects m2.currentPath))
  | .fileRenamed oldKey newKey e =>
    let m1 := { m with loading := false }
    match e with
    | some err => ({ m1 with err := some err, statusMessage := [] }, none)
    | none =>
      let m2 := { m1 with
        err := none,
        statusMessage := "✓ Renamed ".toList ++ baseName oldKey ++ " to ".toList
          ++ baseName newKey ++ " successfully".toList }
      (m2, some (Cmd.loadObjects m2.currentPath))
  | .statusEvent message isError =>
    if isError then ({ m with err := some message, statusMessage := [] }, none)
    else ({ m with err := none, statusMessage := message }, none)
  | .localFilesLoaded items pth e =>
    match e with
    | some err => ({ m with err := some err }, none)
    | none =>
      ({ m with
          localItems := items, localPath := pth, cursor := 0,
          viewMode := ViewMode.upload, err := none }, none)
  | .errorEvent e => ({ m with err := some e, loading := false }, none)
  | .dirStats d =>
    ({ m with dirStatsCache := insertAL m.dirStatsCache d.dirKey (dirStatsRecord d) }, none)

/-- The banner `viewBrowser` shows in its status area: the error when one is
set, else the status message when nonempty, else nothing (README lines
992-998). -/
def shownBanner (m : Model) : Option (Bool × Str) :=
  match m.err with
  | some e => some (true, e)
  | none => if m.statusMessage.isEmpty then none else some (false, m.statusMessage)

/-! ## Rename dialog (`updateRename`, README lines 820-916) -/

/-- The key cases of `updateRename`; `charKey c` is a key whose string is the
single printable character `c` and that matches none of the named cases,
`other` any remaining key (which falls to the default case and inserts
nothing). -/
inductive RKey where
  | quit | esc | enterKey | backspace | deleteKey | left | right
  | home | endKey | ctrlU | ctrlW | charKey (c : Char) | other
deriving DecidableEq, Repr

/-- The `ctrl+w` start index: Go walks `start` left from the cursor over
spaces, then over non-spaces, then steps right once. Equivalently: the length
of the prefix before the cursor after stripping its trailing spaces and then
its trailing word. -/
def ctrlWStart (pre : Str) : Nat :=
  ((pre.reverse.dropWhile (fun c => c == ' ')).dropWhile (fun c => c != ' ')).length

/-- `updateRename`. The cursor is kept as a `Nat`: Go's `int` cursor never
goes below 0 on these paths, and the final clamp against the input length is
applied to every case that falls through the `switch` (the `quit`, `esc` and
`enter` cases return early, as in Go). -/
def updateRename (m : Model) (k : RKey) : Model × Option Cmd :=
  match k with
  | .quit => (m, some Cmd.quit)
  | .esc =>
    ({ m with
        viewMode := ViewMode.browser, renameInput := [], renameOriginal := [],
        renameCursor := 0 }, none)
  | .enterKey =>
    if m.renameInput ≠ [] ∧ m.renameInput ≠ baseName m.renameOriginal then
      ({ m with
          viewMode := ViewMode.browser, loading := true, renameInput := [],
          renameOriginal := [], renameCursor := 0 },
        some (Cmd.renameFile m.renameOriginal m.renameInput))
    else
      ({ m with
          viewMode := ViewMode.browser, renameInput := [], renameOriginal := [],
          renameCursor := 0 }, none)
  | k =>
    let m1 : Model :=
      match k with
      | .backspace =>
        if 0 < m.renameCursor ∧ 0 < m.renameInput.length then
          { m with
              renameInput := m.renameInput.take (m.renameCursor - 1)
                ++ m.renameInput.drop m.renameCursor,
              renameCursor := m.renameCursor - 1 }
        else m
      | .deleteKey =>
        if m.renameCursor < m.renameInput.length then
          { m with
              renameInput := m.renameInput.take m.renameCursor
                ++ m.renameInput.drop (m.renameCursor + 1) }
        else m
      | .left => if 0 < m.renameCursor then { m with renameCursor := m.renameCursor - 1 } else m
      | .right =>
        if m.renameCursor < m.renameInput.length then
          { m with renameCursor := m.renameCursor + 1 }
        else m
      | .home => { m with renameCursor := 0 }
      | .endKey => { m with renameCursor := m.renameInput.length }
      | .ctrlU => { m with renameInput := m.renameInput.drop m.renameCursor, renameCursor := 0 }
      | .ctrlW =>
        if 0 < m.renameCursor then
          let start := ctrlWStart (m.renameInput.take m.renameCursor)
          { m with
              renameInput := m.renameInput.take start ++ m.renameInput.drop m.renameCursor,
              renameCursor := start }
        else m
      | .charKey c =>
        if 32 ≤ c.toNat ∧ c.toNat ≤ 126 then
          { m with
              renameInput := m.renameInput.take m.renameCursor ++ c ::
                m.renameInput.drop m.renameCursor,
              renameCursor := m.renameCursor + 1 }
        else m
      | _ => m
    let m2 :=
      if m1.renameInput.length < m1.renameCursor then
        { m1 with renameCursor := m1.renameInput.length }
      else m1
    (m2, none)

/-- The new key `renameFile` builds (README lines 1704-1713): replace the last
slash-separated segment of `oldKey` by the new filename; a key without a
slash is replaced wholesale. -/
def renameNewKey (oldKey newFilename : Str) : Str :=
  if oldKey.contains '/' then
    List.intercalate ['/'] ((oldKey.splitOn '/').dropLast ++ [newFilename])
  else newFilename

/-- What the `renameFile` command does when it runs (README lines 1701-1741):
the produced `fileRenamedMsg` and whether the remote `RenameObject` call was
made. A destination key already present in the current listing is rejected
before any remote call. `remoteErr` is the error the remote rename would
return. (The Go closure also rewrites a yanked-files entry on success; no
claim touches that.) -/
def renameFileRun (objs : List S3Object) (oldKey newFilename : Str) (remoteErr : Option Str) :
    Msg × Bool :=
  let newKey := renameNewKey oldKey newFilename
  if objs.any (fun o => o.Key == newKey) then
    (Msg.fileRenamed [] [] (some ("file ".toList ++ newFilename ++ " already exists".toList)),
      false)
  else
    match remoteErr with
    | some e => (Msg.fileRenamed [] [] (some e), true)
    | none => (Msg.fileRenamed oldKey newKey none, true)

/-! ## The s3client `RenameObject` (s3client.go lines 167-181) -/

/-- The remote calls `RenameObject` can make. -/
inductive S3Op where
  | copyObjectOp (src dst : Str)
  | deleteObjectOp (key : Str)
deriving DecidableEq, Repr

/-- The error `RenameObject` wraps around a failed copy. -/
def wrapCopyErr (e : Str) : Str :=
  "failed to copy object during rename: ".toList ++ e

/-- The error `RenameObject` wraps around a failed delete. -/
def wrapDeleteErr (e : Str) : Str :=
  "failed to delete original object during rename: ".toList ++ e

/-- A successful `CopyObject` on the bucket contents (keys to contents):
the destination key gets the source object's content. -/
def copyObjectStore (st : List (Str × Str)) (src dst : Str) : List (Str × Str) :=
  match lookupAL st src with
  | some v => insertAL st dst v
  | none => st

/-- A successful `DeleteObject`: the key is removed. -/
def deleteObjectStore (st : List (Str × Str)) (key : Str) : List (Str × Str) :=
  st.filter (fun kv => kv.1 ≠ key)

/-- `RenameObject`: copy to the new key, then delete the old key, stopping at
the first failure. `copyErr` and `deleteErr` inject the outcome of each
remote call; the result is the returned error (`none` = success), the bucket
contents afterwards, and the calls that were attempted, in order. -/
def RenameObject (st : List (Str × Str)) (copyErr deleteErr : Option Str)
    (oldKey newKey : Str) : Option Str × List (Str × Str) × List S3Op :=
  match copyErr with
  | some e => (some (wrapCopyErr e), st, [S3Op.copyObjectOp oldKey newKey])
  | none =>
    let st1 := copyObjectStore st oldKey newKey
    match deleteErr with
    | some e =>
      (some (wrapDeleteErr e), st1,
        [S3Op.copyObjectOp oldKey newKey, S3Op.deleteObjectOp oldKey])
    | none =>
      (none, deleteObjectStore st1 oldKey,
        [S3Op.copyObjectOp oldKey newKey, S3Op.deleteObjectOp oldKey])

/-! ## The legacy variant (src/unnamed/part_000) -/

/-- The legacy variant's model: no yank/paste, rename, confirm, scroll or
directory-stats state. -/
structure LModel where
  currentPath : Str
  objects : List S3Object
  cursor : Int
  viewMode : ViewMode
  err : Option Str
  statusMessage : Str
  loading : Bool
deriving DecidableEq, Repr

/-- The key cases of the legacy `updateBrowser` (part_000 lines 278-352);
there `r` refreshes the current directory. -/
inductive LKey where
  | quit | up | down | enter | back | refresh | download | upload | delete | help | other
deriving DecidableEq, Repr

/-- The legacy `updateBrowser`: `d` and `x` run download and delete
immediately, and `r` re-dispatches the listing command for the current
prefix. -/
def legacyUpdateBrowser (m : LModel) (k : LKey) : LModel × Option Cmd :=
  match k with
  | .quit => (m, some Cmd.quit)
  | .up => (if 0 < m.cursor then { m with cursor := m.cursor - 1 } else m, none)
  | .down =>
    (if m.cursor < (m.objects.length : Int) - 1 then { m with cursor := m.cursor + 1 } else m,
      none)
  | .enter =>
    if 0 < m.objects.length then
      match m.objects.get? m.cursor.toNat with
      | some selected =>
        if selected.IsDir then
          ({ m with currentPath := selected.Key, loading := true },
            some (Cmd.loadObjects selected.Key))
        else (m, some (Cmd.previewFile selected.Key))
      | none => (m, none)
    else (m, none)
  | .back =>
    if m.currentPath.isEmpty then (m, none)
    else
      let parts := m.currentPath.splitOn '/'
      let newPath := if 1 < parts.length then List.intercalate ['/'] parts.dropLast else []
      ({ m with currentPath := newPath, loading := true }, some (Cmd.loadObjects newPath))
  | .refresh => ({ m with loading := true }, some (Cmd.loadObjects m.currentPath))
  | .download =>
    if 0 < m.objects.length then
      match m.objects.get? m.cursor.toNat with
      | some selected =>
        if selected.IsDir then (m, none) else (m, some (Cmd.downloadFile selected.Key))
      | none => (m, none)
    else (m, none)
  | .upload => (m, some (Cmd.loadLocalFiles ['.']))
  | .delete =>
    if 0 < m.objects.length then
      match m.objects.get? m.cursor.toNat with
      | some selected =>
        if selected.IsDir then (m, none) else (m, some (Cmd.deleteFile selected.Key))
      | none => (m, none)
    else (m, none)
  | .help => ({ m with viewMode := ViewMode.help }, none)
  | .other => (m, none)

/-! ## C1: paste conflict resolution -/

lemma digitChar_inj : ∀ d1 < 10, ∀ d2 < 10, digitChar d1 = digitChar d2 → d1 = d2 := by
  decide

lemma map_digitChar_inj : ∀ l1 l2 : List Nat, (∀ d ∈ l1, d < 10) → (∀ d ∈ l2, d < 10) →
    l1.map digitChar = l2.map digitChar → l1 = l2 := by
  intro l1
  induction l1 with
  | nil =>
    intro l2 _ _ h
    cases l2 with
    | nil => rfl
    | cons b bs => simp at h
  | cons a as ih =>
    intro l2 h1 h2 h
    cases l2 with
    | nil => simp at h
    | cons b bs =>
      simp only [List.map_cons, List.cons.injEq] at h
      have hab : a = b :=
        digitChar_inj a (h1 a (by simp)) b (h2 b (by simp)) h.1
      have htail := ih bs (fun d hd => h1 d (by simp [hd])) (fun d hd => h2 d (by simp [hd])) h.2
      rw [hab, htail]

lemma natChars_inj {m n : Nat} (hm : 1 ≤ m) (hn : 1 ≤ n) (h : natChars m = natChars n) :
    m = n := by
  unfold natChars at h
  rw [if_neg (by omega), if_neg (by omega), List.reverse_inj] at h
  have hd := map_digitChar_inj _ _
    (fun d hd => Nat.digits_lt_base (by norm_num) hd)
    (fun d hd => Nat.digits_lt_base (by norm_num) hd) h
  exact Nat.digits_inj_iff.mp hd

lemma copyFileName_inj {stem ext : Str} {m n : Nat} (hm : 1 ≤ m) (hn : 1 ≤ n)
    (h : copyFileName stem ext m = copyFileName stem ext n) : m = n := by
  unfold copyFileName at h
  rw [List.append_assoc, List.append_assoc] at h
  have h1 := List.append_cancel_left h
  simp only [List.cons_append, List.cons.injEq, true_and] at h1
  exact natChars_inj hm hn (List.append_cancel_right h1)

lemma destKeyFor_inj {pth f1 f2 : Str} (h : destKeyFor pth f1 = destKeyFor pth f2) :
    f1 = f2 := by
  unfold destKeyFor at h
  split at h
  · exact h
  · have := List.append_cancel_left h
    simpa using this

lemma exists_free_counter (keys : List Str) (pth stem ext : Str) :
    ∃ n, 1 ≤ n ∧ n < 1 + (keys.length + 1) ∧
      destKeyFor pth (copyFileName stem ext n) ∉ keys := by
  by_contra hcon
  push_neg at hcon
  have hsub : ((List.range' 1 (keys.length + 1)).map
      (fun n => destKeyFor pth (copyFileName stem ext n))) ⊆ keys := by
    intro x hx
    rcases List.mem_map.mp hx with ⟨n, hn, rfl⟩
    rcases List.mem_range'_1.mp hn with ⟨h1, h2⟩
    exact hcon n h1 h2
  have hnd : ((List.range' 1 (keys.length + 1)).map
      (fun n => destKeyFor pth (copyFileName stem ext n))).Nodup := by
    refine List.Nodup.map_on ?_ (List.nodup_range' _ _)
    intro x hx y hy hxy
    rcases List.mem_range'_1.mp hx with ⟨hx1, _⟩
    rcases List.mem_range'_1.mp hy with ⟨hy1, _⟩
    exact copyFileName_inj hx1 hy1 (destKeyFor_inj hxy)
  have hle := (hnd.subperm hsub).length_le
  simp [List.length_range'] at hle

lemma findCounter_spec (keys : List Str) (pth stem ext : Str) :
    ∀ fuel c, (∃ n, c ≤ n ∧ n < c + fuel ∧ destKeyFor pth (copyFileName stem ext n) ∉ keys) →
      destKeyFor pth (copyFileName stem ext (findCounter keys pth stem ext c fuel)) ∉ keys ∧
      c ≤ findCounter keys pth stem ext c fuel ∧
      ∀ j, c ≤ j → j < findCounter keys pth stem ext c fuel →
        destKeyFor pth (copyFileName stem ext j) ∈ keys := by
  intro fuel
  induction fuel with
  | zero =>
    rintro c ⟨n, h1, h2, -⟩
    omega
  | succ fuel ih =>
    rintro c ⟨n, h1, h2, h3⟩
    by_cases hc : destKeyFor pth (copyFileName stem ext c) ∈ keys
    · have hex : ∃ k, c + 1 ≤ k ∧ k < c + 1 + fuel ∧
          destKeyFor pth (copyFileName stem ext k) ∉ keys := by
        refine ⟨n, ?_, by omega, h3⟩
        rcases Nat.eq_or_lt_of_le h1 with heq | hlt
        · exact absurd (heq ▸ hc) h3
        · omega
      obtain ⟨r1, r2, r3⟩ := ih (c + 1) hex
      rw [findCounter, if_pos hc]
      refine ⟨r1, by omega, ?_⟩
      intro j hj1 hj2
      rcases Nat.eq_or_lt_of_le hj1 with heq | hlt
      · rw [← heq]; exact hc
      · exact r3 j hlt hj2
    · rw [findCounter, if_neg hc]
      exact ⟨hc, Nat.le_refl c, fun j hj1 hj2 => absurd hj2 (by omega)⟩

lemma trimSuffix_append_self (t e : Str) : trimSuffix (t ++ e) e ++ e = t ++ e := by
  rw [trimSuffix, if_pos (List.isSuffixOf_iff_suffix.mpr ⟨t, rfl⟩)]
  have hl : (t ++ e).length - e.length = t.length := by simp
  rw [hl, List.take_left]

lemma extOf_suffix : ∀ s : Str, extOf s <:+ s := by
  intro s
  induction s with
  | nil => exact List.nil_suffix
  | cons c rest ih =>
    rw [extOf]
    split
    · exact ih.trans (List.suffix_cons c rest)
    · split
      · exact List.suffix_rfl
      · exact List.nil_suffix

lemma trimSuffix_extOf_append (s : Str) : trimSuffix s (extOf s) ++ extOf s = s := by
  obtain ⟨t, ht⟩ := extOf_suffix s
  calc trimSuffix s (extOf s) ++ extOf s
      = trimSuffix (t ++ extOf s) (extOf s) ++ extOf s := by rw [ht]
    _ = t ++ extOf s := trimSuffix_append_self t (extOf s)
    _ = s := ht

/-- C1: when pasting a marked file, the destination key is the plain
`currentPath`-prefixed base name when that key is not in the current listing;
when it is, the chosen destination inserts `_copy_N` between the stem and the
extension of the base name (which recompose to the base name), where `N` is
the smallest positive counter whose key is absent from the listing. -/
theorem paste_conflict_resolution (objs : List S3Object) (pth yanked : Str) :
    (destKeyFor pth (baseName yanked) ∉ objs.map S3Object.Key →
      pasteDest (objs.map S3Object.Key) pth yanked = destKeyFor pth (baseName yanked)) ∧
    (destKeyFor pth (baseName yanked) ∈ objs.map S3Object.Key →
      ∃ N, 1 ≤ N ∧
        pasteDest (objs.map S3Object.Key) pth yanked =
          destKeyFor pth (copyFileName (trimSuffix (baseName yanked) (extOf (baseName yanked)))
            (extOf (baseName yanked)) N) ∧
        destKeyFor pth (copyFileName (trimSuffix (baseName yanked) (extOf (baseName yanked)))
          (extOf (baseName yanked)) N) ∉ objs.map S3Object.Key ∧
        ∀ j, 1 ≤ j → j < N →
          destKeyFor pth (copyFileName (trimSuffix (baseName yanked) (extOf (baseName yanked)))
            (extOf (baseName yanked)) j) ∈ objs.map S3Object.Key) ∧
    trimSuffix (baseName yanked) (extOf (baseName yanked)) ++ extOf (baseName yanked) =
      baseName yanked := by
  set keys := objs.map S3Object.Key with hkeys
  set filename := baseName yanked with hfn
  set ext := extOf filename with hext
  set stem := trimSuffix filename ext with hstem
  refine ⟨?_, ?_, trimSuffix_extOf_append filename⟩
  · intro hnot
    rw [pasteDest, if_neg hnot]
  · intro hin
    refine ⟨findCounter keys pth stem ext 1 (keys.length + 1), ?_, ?_, ?_, ?_⟩
    · exact (findCounter_spec keys pth stem ext (keys.length + 1) 1
        (exists_free_counter keys pth stem ext)).2.1
    · rw [pasteDest, if_pos hin]
    · exact (findCounter_spec keys pth stem ext (keys.length + 1) 1
        (exists_free_counter keys pth stem ext)).1
    · exact (findCounter_spec keys pth stem ext (keys.length + 1) 1
        (exists_free_counter keys pth stem ext)).2.2

/-! ## C2 and C3: scroll and cursor invariants -/

lemma availableHeight_ge (h : Int) : 5 ≤ availableHeight h := by
  unfold availableHeight
  split <;> omega

lemma scrollAdjust_bounds {n c ah so : Int} (hah : 5 ≤ ah) (hc0 : 0 ≤ c) (hc1 : c ≤ n - 1) :
    0 ≤ scrollAdjust n c ah so ∧ scrollAdjust n c ah so ≤ c ∧
      c < scrollAdjust n c ah so + ah := by
  unfold scrollAdjust scrollClampHigh scrollClampLow scrollSnapUp scrollSnapDown
  split_ifs <;> omega

/-- The cursor bounds that hold in every reachable state: within `[0, n-1]`
when the listing is nonempty, pinned at 0 when it is empty. -/
def cursorOk (m : Model) : Prop :=
  (m.objects.length = 0 → m.cursor = 0) ∧
  (0 < m.objects.length → 0 ≤ m.cursor ∧ m.cursor ≤ (m.objects.length : Int) - 1)

lemma updateScroll_bounds (m : Model) (h0 : 0 < m.objects.length) (hc0 : 0 ≤ m.cursor)
    (hc1 : m.cursor ≤ (m.objects.length : Int) - 1) :
    0 ≤ (updateScroll m).scrollOffset ∧ (updateScroll m).scrollOffset ≤ m.cursor ∧
      m.cursor < (updateScroll m).scrollOffset + availableHeight m.height := by
  have hne : m.objects.length ≠ 0 := by omega
  show 0 ≤ newScrollOffset m ∧ newScrollOffset m ≤ m.cursor ∧
    m.cursor < newScrollOffset m + availableHeight m.height
  rw [newScrollOffset, if_neg hne]
  exact scrollAdjust_bounds (availableHeight_ge m.height) hc0 hc1

/-- Whether browser key `k` moves the cursor in state `m` (these are exactly
the branches of `updateBrowser` that run `updateScroll` after setting the
cursor). -/
def moveActive (m : Model) : BKey → Prop
  | .up => 0 < m.cursor
  | .down => m.cursor < (m.objects.length : Int) - 1
  | .gofirst => 0 < m.objects.length
  | .golast => 0 < m.objects.length
  | .halfdown => 0 < m.objects.length
  | .halfup => 0 < m.objects.length
  | _ => False

lemma updateScroll_set_cursor_bounds (m : Model) (c2 : Int) (h0 : 0 < m.objects.length)
    (hc0 : 0 ≤ c2) (hc1 : c2 ≤ (m.objects.length : Int) - 1) :
    0 ≤ (updateScroll { m with cursor := c2 }).scrollOffset ∧
      (updateScroll { m with cursor := c2 }).scrollOffset ≤
        (updateScroll { m with cursor := c2 }).cursor ∧
      (updateScroll { m with cursor := c2 }).cursor <
        (updateScroll { m with cursor := c2 }).scrollOffset + availableHeight m.height :=
  updateScroll_bounds { m with cursor := c2 } h0 hc0 hc1

/-- C2: a cursor move in Browser mode (up, down, half-page up or down,
go-to-first, go-to-last) leaves a non-negative scroll offset, and whenever the
listing has at least `visibleHeight` entries the cursor lies inside the window
`[scrollOffset, scrollOffset + visibleHeight)`, where `visibleHeight` is the
render height minus fixed chrome, floored at 5. -/
theorem scroll_invariant_after_move (m : Model) (k : BKey) (hok : cursorOk m)
    (hmv : moveActive m k) :
    0 ≤ ((updateBrowser m k).1).scrollOffset ∧
    (availableHeight m.height ≤ (m.objects.length : Int) →
      ((updateBrowser m k).1).scrollOffset ≤ ((updateBrowser m k).1).cursor ∧
      ((updateBrowser m k).1).cursor <
        ((updateBrowser m k).1).scrollOffset + availableHeight m.height) := by
  obtain ⟨hz, hpos⟩ := hok
  cases k with
  | up =>
    have hmv : 0 < m.cursor := hmv
    have hn : 0 < m.objects.length := by
      rcases Nat.eq_zero_or_pos m.objects.length with h | h
      · rw [hz h] at hmv; omega
      · exact h
    obtain ⟨hb0, hb1⟩ := hpos hn
    rw [updateBrowser, if_pos hmv]
    obtain ⟨r1, r2, r3⟩ :=
      updateScroll_set_cursor_bounds m (m.cursor - 1) hn (by omega) (by omega)
    exact ⟨r1, fun _ => ⟨r2, r3⟩⟩
  | down =>
    have hmv : m.cursor < (m.objects.length : Int) - 1 := hmv
    have hn : 0 < m.objects.length := by
      rcases Nat.eq_zero_or_pos m.objects.length with h | h
      · rw [hz h, h] at hmv; simp at hmv
      · exact h
    obtain ⟨hb0, hb1⟩ := hpos hn
    rw [updateBrowser, if_pos hmv]
    obtain ⟨r1, r2, r3⟩ :=
      updateScroll_set_cursor_bounds m (m.cursor + 1) hn (by omega) (by omega)
    exact ⟨r1, fun _ => ⟨r2, r3⟩⟩
  | gofirst =>
    have hn : 0 < m.objects.length := hmv
    rw [updateBrowser, if_pos hn]
    obtain ⟨r1, r2, r3⟩ :=
      updateScroll_set_cursor_bounds m 0 hn (by omega) (by omega)
    exact ⟨r1, fun _ => ⟨r2, r3⟩⟩
  | golast =>
    have hn : 0 < m.objects.length := hmv
    rw [updateBrowser, if_pos hn]
    obtain ⟨r1, r2, r3⟩ :=
      updateScroll_set_cursor_bounds m ((m.objects.length : Int) - 1) hn (by omega) (by omega)
    exact ⟨r1, fun _ => ⟨r2, r3⟩⟩
  | halfdown =>
    have hn : 0 < m.objects.length := hmv
    obtain ⟨hb0, hb1⟩ := hpos hn
    rw [updateBrowser, if_pos hn]
    have hps : 0 < (if availableHeight m.height / 2 < 1 then 1
        else availableHeight m.height / 2) := by
      split <;> omega
    set ps := if availableHeight m.height / 2 < 1 then 1 else availableHeight m.height / 2
      with hps_def
    set c2 := if (m.objects.length : Int) ≤ m.cursor + ps then (m.objects.length : Int) - 1
      else m.cursor + ps with hc2_def
    have hc2a : 0 ≤ c2 := by
      rw [hc2_def]; split <;> omega
    have hc2b : c2 ≤ (m.objects.length : Int) - 1 := by
      rw [hc2_def]; split <;> omega
    obtain ⟨r1, r2, r3⟩ := updateScroll_set_cursor_bounds m c2 hn hc2a hc2b
    exact ⟨r1, fun _ => ⟨r2, r3⟩⟩
  | halfup =>
    have hn : 0 < m.objects.length := hmv
    obtain ⟨hb0, hb1⟩ := hpos hn
    rw [updateBrowser, if_pos hn]
    have hps : 0 < (if availableHeight m.height / 2 < 1 then 1
        else availableHeight m.height / 2) := by
      split <;> omega
    set ps := if availableHeight m.height / 2 < 1 then 1 else availableHeight m.height / 2
      with hps_def
    set c2 := if m.cursor - ps < 0 then 0 else m.cursor - ps with hc2_def
    have hc2a : 0 ≤ c2 := by
      rw [hc2_def]; split <;> omega
    have hc2b : c2 ≤ (m.objects.length : Int) - 1 := by
      rw [hc2_def]; split <;> omega
    obtain ⟨r1, r2, r3⟩ := updateScroll_set_cursor_bounds m c2 hn hc2a hc2b
    exact ⟨r1, fun _ => ⟨r2, r3⟩⟩
  | quit => exact hmv.elim
  | enter => exact hmv.elim
  | back => exact hmv.elim
  | rename => exact hmv.elim
  | download => exact hmv.elim
  | upload => exact hmv.elim
  | delete => exact hmv.elim
  | yank => exact hmv.elim
  | paste => exact hmv.elim
  | clearYank => exact hmv.elim
  | help => exact hmv.elim
  | other => exact hmv.elim

/-- An up or down cursor-move input. -/
inductive UD where
  | u
  | d
deriving DecidableEq, Repr

/-- The browser key of an up/down move. -/
def udKey : UD → BKey
  | .u => BKey.up
  | .d => BKey.down

/-- A sequence of up/down moves fed through `updateBrowser`. -/
def applyMoves (m : Model) (ks : List UD) : Model :=
  ks.foldl (fun m k => (updateBrowser m (udKey k)).1) m

lemma cursorOk_set_cursor (m : Model) (c : Int) (hn : 0 < m.objects.length)
    (h1 : 0 ≤ c) (h2 : c ≤ (m.objects.length : Int) - 1) :
    cursorOk (updateScroll { m with cursor := c }) :=
  ⟨fun h0 => absurd h0 (Nat.pos_iff_ne_zero.mp hn), fun _ => ⟨h1, h2⟩⟩

lemma cursorOk_ud_step (m : Model) (k : UD) (h : cursorOk m) :
    cursorOk (updateBrowser m (udKey k)).1 := by
  obtain ⟨hz, hpos⟩ := h
  cases k with
  | u =>
    rw [udKey, updateBrowser]
    split
    · rename_i hc
      have hn : 0 < m.objects.length := by
        rcases Nat.eq_zero_or_pos m.objects.length with h0 | h0
        · rw [hz h0] at hc; exact absurd hc (by omega)
        · exact h0
      obtain ⟨h1, h2⟩ := hpos hn
      exact cursorOk_set_cursor m (m.cursor - 1) hn (by omega) (by omega)
    · exact ⟨hz, hpos⟩
  | d =>
    rw [udKey, updateBrowser]
    split
    · rename_i hc
      have hn : 0 < m.objects.length := by
        rcases Nat.eq_zero_or_pos m.objects.length with h0 | h0
        · rw [hz h0, h0] at hc; exact absurd hc (by norm_num)
        · exact h0
      obtain ⟨h1, h2⟩ := hpos hn
      exact cursorOk_set_cursor m (m.cursor + 1) hn (by omega) (by omega)
    · exact ⟨hz, hpos⟩

/-- C3: over any sequence of up/down cursor moves in Browser mode, starting
from a state with the reachable cursor bounds, the cursor stays within
`[0, n-1]` when the listing is nonempty and stays 0 when it is empty. -/
theorem cursor_stays_in_bounds (m : Model) (ks : List UD) (h : cursorOk m) :
    cursorOk (applyMoves m ks) := by
  induction ks generalizing m with
  | nil => exact h
  | cons k ks ih => exact ih _ (cursorOk_ud_step m k h)

/-! ## C4: listing order -/

lemma strLt_irrefl : ∀ s : Str, strLt s s = false := by
  intro s
  induction s with
  | nil => rfl
  | cons c cs ih => simp [strLt, ih]

lemma strLt_asymm : ∀ a b : Str, strLt a b = true → strLt b a = false := by
  intro a
  induction a with
  | nil =>
    intro b h
    cases b with
    | nil => simp [strLt] at h
    | cons y ys => simp [strLt]
  | cons x xs ih =>
    intro b h
    cases b with
    | nil => simp [strLt] at h
    | cons y ys =>
      simp only [strLt] at h ⊢
      rcases lt_trichotomy x y with h1 | h1 | h1
      · simp [h1, not_lt.mpr (le_of_lt h1)]
      · subst h1
        simp only [lt_irrefl, if_false] at h ⊢
        exact ih ys h
      · simp [h1, not_lt.mpr (le_of_lt h1)] at h

lemma strLt_connex : ∀ a b : Str, strLt a b = false → strLt b a = false → a = b := by
  intro a
  induction a with
  | nil =>
    intro b h1 h2
    cases b with
    | nil => rfl
    | cons y ys => simp [strLt] at h1
  | cons x xs ih =>
    intro b h1 h2
    cases b with
    | nil => simp [strLt] at h2
    | cons y ys =>
      simp only [strLt] at h1 h2
      rcases lt_trichotomy x y with hc | hc | hc
      · simp [hc] at h1
      · subst hc
        simp only [lt_irrefl, if_false] at h1 h2
        rw [ih ys h1 h2]
      · simp [hc] at h2

lemma strLt_trans : ∀ a b c : Str, strLt a b = true → strLt b c = true → strLt a c = true := by
  intro a
  induction a with
  | nil =>
    intro b c hab hbc
    cases b with
    | nil => simp [strLt] at hab
    | cons y ys =>
      cases c with
      | nil => simp [strLt] at hbc
      | cons z zs => simp [strLt]
  | cons x xs ih =>
    intro b c hab hbc
    cases b with
    | nil => simp [strLt] at hab
    | cons y ys =>
      cases c with
      | nil => simp [strLt] at hbc
      | cons z zs =>
        simp only [strLt] at hab hbc ⊢
        rcases lt_trichotomy x y with h1 | h1 | h1
        · rcases lt_trichotomy y z with h2 | h2 | h2
          · simp [lt_trans h1 h2]
          · subst h2; simp [h1]
          · simp [not_lt.mpr (le_of_lt h2), h2] at hbc
        · subst h1
          rcases lt_trichotomy x z with h2 | h2 | h2
          · simp [h2]
          · subst h2
            simp only [lt_irrefl, if_false] at hab hbc ⊢
            exact ih ys zs hab hbc
          · simp [not_lt.mpr (le_of_lt h2), h2] at hbc
        · simp [not_lt.mpr (le_of_lt h1), h1] at hab

lemma strLt_negtrans {a b c : Str} (h1 : strLt a b = false) (h2 : strLt b c = false) :
    strLt a c = false := by
  by_contra hcon
  have hac : strLt a c = true := by
    cases hx : strLt a c
    · exact absurd hx hcon
    · rfl
  rcases hba : strLt b a with hf | ht
  · have := strLt_connex b a hba h1
    subst this
    exact absurd hac (by rw [h2]; simp)
  · have := strLt_trans b a c hba hac
    exact absurd this (by rw [h2]; simp)

lemma goLess_not_both (d1 : Bool) (k1 : Str) (d2 : Bool) (k2 : Str) :
    goLess d1 k1 d2 k2 = false ∨ goLess d2 k2 d1 k1 = false := by
  unfold goLess
  cases d1 <;> cases d2 <;> simp
  · rcases hx : strLt k1 k2 with hf | ht
    · exact Or.inl rfl
    · exact Or.inr (strLt_asymm k1 k2 hx)
  · rcases hx : strLt k1 k2 with hf | ht
    · exact Or.inl rfl
    · exact Or.inr (strLt_asymm k1 k2 hx)

lemma goLess_negtrans {da : Bool} {ka : Str} {db : Bool} {kb : Str} {dc : Bool} {kc : Str}
    (h1 : goLess db kb da ka = false) (h2 : goLess dc kc db kb = false) :
    goLess dc kc da ka = false := by
  unfold goLess at h1 h2 ⊢
  cases da <;> cases db <;> cases dc <;> simp_all
  · exact strLt_negtrans h2 h1
  · exact strLt_negtrans h2 h1

/-- C4: any remote listing after `loadObjects`' sort, and any local listing
after `loadLocalFiles`' build-and-sort, places every directory entry strictly
before every file entry and orders keys/names non-decreasingly
(lexicographically) inside each group. -/
theorem listing_order (objs : List S3Object) (entries : List LocalItem) :
    (sortObjects objs).Pairwise
      (fun a b => (b.IsDir = true → a.IsDir = true) ∧
        (a.IsDir = b.IsDir → strLt b.Key a.Key = false)) ∧
    (localListing entries).Pairwise
      (fun a b => (b.IsDir = true → a.IsDir = true) ∧
        (a.IsDir = b.IsDir → strLt b.Name a.Name = false)) := by
  constructor
  · have hs : (sortObjects objs).Pairwise (fun a b => s3ObjectLess b a = false) := by
      haveI htot : IsTotal S3Object (fun a b => s3ObjectLess b a = false) :=
        ⟨fun a b => goLess_not_both b.IsDir b.Key a.IsDir a.Key⟩
      haveI htrans : IsTrans S3Object (fun a b => s3ObjectLess b a = false) :=
        ⟨fun _ _ _ hab hbc => goLess_negtrans hab hbc⟩
      exact List.sorted_insertionSort _ objs
    refine hs.imp ?_
    intro a b hba
    unfold s3ObjectLess goLess at hba
    constructor
    · intro hbd
      by_contra had
      have had2 : a.IsDir = false := by
        cases hx : a.IsDir
        · rfl
        · exact absurd hx had
      rw [hbd, had2] at hba
      simp at hba
    · intro heq
      rw [heq] at hba
      simpa using hba
  · have hs : (localListing entries).Pairwise (fun a b => localItemLess b a = false) := by
      haveI htot : IsTotal LocalItem (fun a b => localItemLess b a = false) :=
        ⟨fun a b => goLess_not_both b.IsDir b.Name a.IsDir a.Name⟩
      haveI htrans : IsTrans LocalItem (fun a b => localItemLess b a = false) :=
        ⟨fun _ _ _ hab hbc => goLess_negtrans hab hbc⟩
      exact List.sorted_insertionSort _ _
    refine hs.imp ?_
    intro a b hba
    unfold localItemLess goLess at hba
    constructor
    · intro hbd
      by_contra had
      have had2 : a.IsDir = false := by
        cases hx : a.IsDir
        · rfl
        · exact absurd hx had
      rw [hbd, had2] at hba
      simp at hba
    · intro heq
      rw [heq] at hba
      simpa using hba

/-! ## C5: stats-cache atomicity -/

/-- An event that touches the directory-stats cache: a completed background
computation delivering its `dirStatsMsg` (with the resolution of each
dimension's `select`), or a navigation step that clears the cache wholesale
(the only other cache write in the source). -/
inductive StatsEvent where
  | stats (dirKey : Str) (sizeRes dateRes : DimResult)
  | navClear
deriving DecidableEq, Repr

/-- Apply one cache event through the real handlers. -/
def applyStatsEvent (m : Model) : StatsEvent → Model
  | .stats k s d => (update m (Msg.dirStats (calculateDirStats k s d))).1
  | .navClear => { m with dirStatsCache := [] }

/-- Apply a sequence of cache events. -/
def applyStatsEvents (m : Model) (evs : List StatsEvent) : Model :=
  evs.foldl applyStatsEvent m

lemma lookupAL_insertAL {β : Type} (l : List (Str × β)) (k key : Str) (v : β) :
    lookupAL (insertAL l k v) key = if k = key then some v else lookupAL l key := by
  induction l with
  | nil => simp [insertAL, lookupAL]
  | cons kv rest ih =>
    obtain ⟨k1, v1⟩ := kv
    rw [insertAL]
    by_cases h1 : k1 = k
    · rw [if_pos h1, lookupAL]
      by_cases h2 : k = key
      · rw [if_pos h2, if_pos h2]
      · rw [if_neg h2, if_neg h2, lookupAL, if_neg (by rw [h1]; exact h2)]
    · rw [if_neg h1, lookupAL]
      by_cases h2 : k1 = key
      · have : ¬ k = key := by rw [← h2]; intro hc; exact h1 hc.symm
        rw [if_pos h2, if_neg this, lookupAL, if_pos h2]
      · rw [if_neg h2, ih, lookupAL, if_neg h2]

/-- A cache record that one single completed computation could have written:
both dimensions resolved together. -/
def completeRecord (r : DirStats) : Prop :=
  ∃ sizeRes dateRes : DimResult,
    r = dirStatsRecord (calculateDirStats [] sizeRes dateRes) ∧
    (r.SizeTimeout = false → ∃ objs, sizeRes = DimResult.listed objs ∧ r.Size = sumSizes objs) ∧
    (r.SizeTimeout = true → r.Size = 0) ∧
    (r.DateTimeout = false →
      ∃ objs, dateRes = DimResult.listed objs ∧ r.LastModified = latestDate objs) ∧
    (r.DateTimeout = true → r.LastModified = "N/A".toList)

lemma completeRecord_of_calc (k : Str) (s d : DimResult) :
    completeRecord (dirStatsRecord (calculateDirStats k s d)) := by
  refine ⟨s, d, ?_, ?_, ?_, ?_, ?_⟩
  · cases s <;> cases d <;> rfl
  · intro h
    cases s with
    | listed objs => exact ⟨objs, rfl, rfl⟩
    | failed => simp [calculateDirStats, dirStatsRecord] at h
    | timedOut => simp [calculateDirStats, dirStatsRecord] at h
  · intro h
    cases s with
    | listed objs => simp [calculateDirStats, dirStatsRecord] at h
    | failed => rfl
    | timedOut => rfl
  · intro h
    cases d with
    | listed objs => exact ⟨objs, rfl, rfl⟩
    | failed => simp [calculateDirStats, dirStatsRecord] at h
    | timedOut => simp [calculateDirStats, dirStatsRecord] at h
  · intro h
    cases d with
    | listed objs => simp [calculateDirStats, dirStatsRecord] at h
    | failed => rfl
    | timedOut => rfl

lemma statsEvents_invariant (evs : List StatsEvent) (m : Model)
    (hm : ∀ key r, lookupAL m.dirStatsCache key = some r → completeRecord r) :
    ∀ key r, lookupAL (applyStatsEvents m evs).dirStatsCache key = some r →
      completeRecord r := by
  induction evs generalizing m with
  | nil => exact hm
  | cons ev evs ih =>
    refine ih (applyStatsEvent m ev) ?_
    intro key r hr
    cases ev with
    | stats k s d =>
      rw [applyStatsEvent] at hr
      have hc : lookupAL (insertAL m.dirStatsCache (calculateDirStats k s d).dirKey
          (dirStatsRecord (calculateDirStats k s d))) key = some r := hr
      rw [lookupAL_insertAL] at hc
      split at hc
      · cases hc
        exact completeRecord_of_calc k s d
      · exact hm key r hc
    | navClear =>
      rw [applyStatsEvent] at hr
      simp [lookupAL] at hr

/-- C5: after any sequence of stats-computation completions and navigation
cache clears, starting from an empty cache, every record observable in the
directory-stats cache was written as one complete record by a single
background computation: its size dimension is a computed total or is flagged
timed out (with the 0 placeholder), and its date dimension is a computed
latest date or is flagged timed out (with the `N/A` placeholder) — never one
dimension without the other. -/
theorem stats_cache_atomic (evs : List StatsEvent) (m : Model) (key : Str) (r : DirStats)
    (h0 : m.dirStatsCache = [])
    (hr : lookupAL (applyStatsEvents m evs).dirStatsCache key = some r) :
    completeRecord r := by
  refine statsEvents_invariant evs m ?_ key r hr
  intro key2 r2 h2
  rw [h0] at h2
  simp [lookupAL] at h2

/-! ## C6: rename is copy-then-delete -/

lemma lookupAL_insert_self {β : Type} (l : List (Str × β)) (k : Str) (v : β) :
    lookupAL (insertAL l k v) k = some v := by
  rw [lookupAL_insertAL, if_pos rfl]

/-- C6: `RenameObject` copies to the new key and then deletes the old key.
When the copy fails, the result is the wrapped copy error, the store is
untouched and no delete is attempted; when the copy succeeds and the delete
fails, the result is the wrapped delete error and the copied object remains
at the new key; when both succeed, no error is reported. -/
theorem rename_copy_then_delete (st : List (Str × Str)) (copyErr deleteErr : Option Str)
    (oldKey newKey : Str) :
    (∀ e, copyErr = some e →
      RenameObject st copyErr deleteErr oldKey newKey =
        (some (wrapCopyErr e), st, [S3Op.copyObjectOp oldKey newKey]) ∧
      S3Op.deleteObjectOp oldKey ∉ (RenameObject st copyErr deleteErr oldKey newKey).2.2) ∧
    (∀ e, copyErr = none → deleteErr = some e →
      (RenameObject st copyErr deleteErr oldKey newKey).1 = some (wrapDeleteErr e) ∧
      (∀ v, lookupAL st oldKey = some v →
        lookupAL (RenameObject st copyErr deleteErr oldKey newKey).2.1 newKey = some v)) ∧
    (copyErr = none → deleteErr = none →
      (RenameObject st copyErr deleteErr oldKey newKey).1 = none) := by
  refine ⟨?_, ?_, ?_⟩
  · intro e he
    subst he
    rw [RenameObject]
    refine ⟨rfl, ?_⟩
    intro hmem
    rw [List.mem_singleton] at hmem
    cases hmem
  · intro e hc hd
    subst hc
    subst hd
    rw [RenameObject]
    refine ⟨rfl, ?_⟩
    intro v hv
    show lookupAL (copyObjectStore st oldKey newKey) newKey = some v
    rw [copyObjectStore, hv]
    exact lookupAL_insert_self st newKey v
  · intro hc hd
    subst hc
    subst hd
    rw [RenameObject]

/-! ## C7: rename-dialog confirmation -/

/-- C7: confirming the rename dialog dispatches a rename command only when
the entered name is nonempty and differs from the base name of the original
key — otherwise the dialog closes back to Browser mode with its buffers
cleared and no command — and the `renameFile` command rejects a destination
key already present in the listing with an error, without calling the remote
rename. -/
theorem rename_confirm_guard (m : Model) :
    ((m.renameInput = [] ∨ m.renameInput = baseName m.renameOriginal) →
      updateRename m RKey.enterKey =
        ({ m with
            viewMode := ViewMode.browser, renameInput := [], renameOriginal := [],
            renameCursor := 0 }, none)) ∧
    (m.renameInput ≠ [] → m.renameInput ≠ baseName m.renameOriginal →
      updateRename m RKey.enterKey =
        ({ m with
            viewMode := ViewMode.browser, loading := true, renameInput := [],
            renameOriginal := [], renameCursor := 0 },
          some (Cmd.renameFile m.renameOriginal m.renameInput))) ∧
    (∀ (objs : List S3Object) (oldKey newFilename : Str) (remoteErr : Option Str),
      (∃ o ∈ objs, o.Key = renameNewKey oldKey newFilename) →
      renameFileRun objs oldKey newFilename remoteErr =
        (Msg.fileRenamed [] []
          (some ("file ".toList ++ newFilename ++ " already exists".toList)), false)) := by
  refine ⟨?_, ?_, ?_⟩
  · intro hsame
    rw [updateRename]
    rw [if_neg]
    intro ⟨h1, h2⟩
    rcases hsame with h | h
    · exact h1 h
    · exact h2 h
  · intro h1 h2
    rw [updateRename, if_pos ⟨h1, h2⟩]
  · intro objs oldKey newFilename remoteErr hex
    simp only [renameFileRun]
    rw [if_pos]
    obtain ⟨o, ho, hk⟩ := hex
    rw [List.any_eq_true]
    exact ⟨o, ho, by rw [hk, beq_self_eq_true]⟩

/-! ## Concrete states for refutations and witnesses -/

/-- A baseline concrete model: empty bucket view at the root. -/
def baseModel : Model :=
  { currentPath := [], objects := [], cursor := 0, viewMode := ViewMode.browser,
    previewContent := [], previewFileName := [], previewLines := [], previewScroll := 0,
    previewWidth := 0, localItems := [], localPath := [], err := none, statusMessage := [],
    loading := false, width := 80, height := 13, yankedFiles := [], renameInput := [],
    renameOriginal := [], renameCursor := 0, scrollOffset := 0, confirmAction := [],
    confirmTarget := [], confirmData := none, dirStatsCache := [] }

/-- A directory entry under prefix `p`. -/
def dirObj : S3Object := { Key := ['p', '/', 's'], Size := 0, LastModified := [], IsDir := true }

/-- A file entry under prefix `p`. -/
def fileObj (c : Char) : S3Object :=
  { Key := ['p', '/', c], Size := 1, LastModified := ['d'], IsDir := false }

/-- A concrete browser state: prefix `p`, one subdirectory and five files,
cursor on a file, a nonempty stats cache. -/
def testModel : Model :=
  { baseModel with
      currentPath := ['p'],
      objects := [dirObj, fileObj 'a', fileObj 'b', fileObj 'c', fileObj 'd', fileObj 'e'],
      cursor := 2,
      dirStatsCache := [(['p', '/', 's'],
        { Size := 0, LastModified := [], SizeTimeout := false, DateTimeout := false })] }

/-! ## C8: error/status exclusion -/

/-- The file-operation result events — download, upload, delete, copy and
rename outcomes — and explicit status events. -/
def isFileOpResult : Msg → Prop
  | .fileDownloaded _ _ => True
  | .fileUploaded _ _ => True
  | .fileDeleted _ _ => True
  | .fileCopied _ _ _ => True
  | .fileRenamed _ _ _ => True
  | .statusEvent _ _ => True
  | _ => False

/-- C8 as stated is false: the `errorMsg` handler sets the error and leaves a
stale status message in place, so an event that sets an error does not always
clear the status message (concretely: a state whose status message is `ok`
receiving `errorMsg b` keeps both). -/
theorem status_error_exclusion_cex :
    ¬ (∀ (m : Model) (msg : Msg),
        (update m msg).1.err.isSome = true → (update m msg).1.statusMessage = []) := by
  intro h
  have hc := h { baseModel with statusMessage := ['o', 'k'] } (Msg.errorEvent ['b'])
  revert hc
  decide

/-- C8 amended: the file-operation result events (download, upload, delete,
copy, rename) and explicit status events do enforce the exclusion — after any
of them an error implies an empty status message and a nonempty status
message implies no error — and the browser renderer shows at most one of the
two, displaying the status line only when no error is set. Listing, preview
and local-listing failures and the generic error event, however, set the
error while leaving a stale status message in the state. -/
theorem status_error_exclusion_amended (m : Model) (msg : Msg) (hk : isFileOpResult msg) :
    ((update m msg).1.err.isSome = true → (update m msg).1.statusMessage = []) ∧
    ((update m msg).1.statusMessage ≠ [] → (update m msg).1.err = none) ∧
    (∀ m2 : Model, ∀ s, shownBanner m2 = some (false, s) → m2.err = none) := by
  have hbanner : ∀ m2 : Model, ∀ s, shownBanner m2 = some (false, s) → m2.err = none := by
    intro m2 s hb
    rw [shownBanner] at hb
    cases he : m2.err with
    | none => rfl
    | some e =>
      rw [he] at hb
      simp at hb
  cases msg with
  | fileDownloaded filename e =>
    cases e with
    | none => exact ⟨fun h => absurd h (by simp [update]), fun _ => by simp [update], hbanner⟩
    | some err => exact ⟨fun _ => by simp [update], fun h => absurd (by simp [update]) h, hbanner⟩
  | fileUploaded filename e =>
    cases e with
    | none => exact ⟨fun h => absurd h (by simp [update]), fun _ => by simp [update], hbanner⟩
    | some err => exact ⟨fun _ => by simp [update], fun h => absurd (by simp [update]) h, hbanner⟩
  | fileDeleted filename e =>
    cases e with
    | none => exact ⟨fun h => absurd h (by simp [update]), fun _ => by simp [update], hbanner⟩
    | some err => exact ⟨fun _ => by simp [update], fun h => absurd (by simp [update]) h, hbanner⟩
  | fileCopied src dst e =>
    cases e with
    | none => exact ⟨fun h => absurd h (by simp [update]), fun _ => by simp [update], hbanner⟩
    | some err => exact ⟨fun _ => by simp [update], fun h => absurd (by simp [update]) h, hbanner⟩
  | fileRenamed ok nk e =>
    cases e with
    | none => exact ⟨fun h => absurd h (by simp [update]), fun _ => by simp [update], hbanner⟩
    | some err => exact ⟨fun _ => by simp [update], fun h => absurd (by simp [update]) h, hbanner⟩
  | statusEvent message isError =>
    cases isError with
    | false => exact ⟨fun h => absurd h (by simp [update]), fun _ => by simp [update], hbanner⟩
    | true => exact ⟨fun _ => by simp [update], fun h => absurd (by simp [update]) h, hbanner⟩
  | objectsLoaded objs e => exact hk.elim
  | previewLoaded c f e => exact hk.elim
  | localFilesLoaded i p e => exact hk.elim
  | errorEvent e => exact hk.elim
  | dirStats d => exact hk.elim

/-! ## C9: the refresh input -/

/-- What claim C9 asserts of some Browser-mode input of the full variant:
it re-dispatches the listing command for the current prefix, leaves the
prefix unchanged, and clears the directory-stats cache. -/
def refreshInput (k : BKey) : Prop :=
  ∀ m : Model,
    (updateBrowser m k).2 = some (Cmd.loadObjects m.currentPath) ∧
    (updateBrowser m k).1.currentPath = m.currentPath ∧
    (updateBrowser m k).1.dirStatsCache = []

/-- C9 as stated is false for the variant that has a directory-stats cache:
no Browser-mode input of the full variant re-dispatches the listing for the
current prefix while clearing the cache — its `r` key opens the rename
dialog (shown concretely on `testModel`). -/
theorem refresh_input_cex : ¬ ∃ k : BKey, refreshInput k := by
  rintro ⟨k, hk⟩
  have h := hk testModel
  revert h
  cases k <;> decide

/-- C9 amended: in the legacy variant the `r` input does re-dispatch the
listing command for the current prefix (setting the loading flag and changing
nothing else); that variant has no directory-stats cache to clear, and in the
full variant — the one with the cache — `r` is rename and no refresh input
exists. -/
theorem refresh_input_amended (lm : LModel) :
    legacyUpdateBrowser lm LKey.refresh =
      ({ lm with loading := true }, some (Cmd.loadObjects lm.currentPath)) := rfl

/-! ## C10: directory entries are inert for rename, download, delete -/

/-- C10: in Browser mode, when the entry under the cursor is a directory, the
rename, download and delete keypresses leave the model unchanged and dispatch
no command. -/
theorem dir_entry_noop (m : Model) (o : S3Object) (k : BKey)
    (hk : k = BKey.rename ∨ k = BKey.download ∨ k = BKey.delete)
    (hsel : m.objects.get? m.cursor.toNat = some o) (hdir : o.IsDir = true) :
    updateBrowser m k = (m, none) := by
  have hn : 0 < m.objects.length := by
    rcases Nat.lt_or_ge m.cursor.toNat m.objects.length with h | h
    · omega
    · rw [List.get?_eq_none.mpr h] at hsel; cases hsel
  rcases hk with hk | hk | hk <;> subst hk <;>
    (rw [updateBrowser, if_pos hn]; simp only [hsel]; rw [if_pos hdir])

/-! ## Witnesses: the hypothesis-bearing theorems applied at concrete inputs -/

instance (m : Model) : Decidable (cursorOk m) := by
  unfold cursorOk
  infer_instance

instance (m : Model) (k : BKey) : Decidable (moveActive m k) := by
  cases k <;> (unfold moveActive; infer_instance)

/-- C2's invariant at a concrete input: a `down` move on `testModel`. -/
theorem scroll_invariant_after_move_witness :
    0 ≤ ((updateBrowser testModel BKey.down).1).scrollOffset ∧
    (availableHeight testModel.height ≤ (testModel.objects.length : Int) →
      ((updateBrowser testModel BKey.down).1).scrollOffset ≤
        ((updateBrowser testModel BKey.down).1).cursor ∧
      ((updateBrowser testModel BKey.down).1).cursor <
        ((updateBrowser testModel BKey.down).1).scrollOffset +
          availableHeight testModel.height) :=
  scroll_invariant_after_move testModel BKey.down (by decide) (by decide)

/-- C3's invariant at a concrete input: three moves on `testModel`. -/
theorem cursor_stays_in_bounds_witness :
    cursorOk (applyMoves testModel [UD.d, UD.d, UD.u]) :=
  cursor_stays_in_bounds testModel [UD.d, UD.d, UD.u] (by decide)

/-- C5's record completeness at a concrete input: one computation whose size
dimension listed one file and whose date dimension timed out. -/
theorem stats_cache_atomic_witness :
    completeRecord (dirStatsRecord (calculateDirStats ['k']
      (DimResult.listed [fileObj 'a']) DimResult.timedOut)) :=
  stats_cache_atomic
    [StatsEvent.stats ['k'] (DimResult.listed [fileObj 'a']) DimResult.timedOut]
    baseModel ['k'] _ rfl (by decide)

/-- C8's amended exclusion at a concrete input: a successful download result
on `baseModel`. -/
theorem status_error_exclusion_amended_witness :
    ((update baseModel (Msg.fileDownloaded ['f'] none)).1.err.isSome = true →
      (update baseModel (Msg.fileDownloaded ['f'] none)).1.statusMessage = []) ∧
    ((update baseModel (Msg.fileDownloaded ['f'] none)).1.statusMessage ≠ [] →
      (update baseModel (Msg.fileDownloaded ['f'] none)).1.err = none) ∧
    (∀ m2 : Model, ∀ s, shownBanner m2 = some (false, s) → m2.err = none) :=
  status_error_exclusion_amended baseModel (Msg.fileDownloaded ['f'] none) trivial

/-- C10's no-op at a concrete input: `delete` pressed with the cursor on the
directory entry of `testModel`. -/
theorem dir_entry_noop_witness :
    updateBrowser { testModel with cursor := 0 } BKey.delete =
      ({ testModel with cursor := 0 }, none) :=
  dir_entry_noop { testModel with cursor := 0 } dirObj BKey.delete
    (Or.inr (Or.inr rfl)) rfl rfl

end S4
